import Mathlib

/-!
# Verification of `goo.py`

A shallow embedding of the core pipeline of `goo.py` (keyword ingestion →
rate-limited fetch/extract loop with per-item failure isolation → numeric-aware
sort → delimited output) together with theorems settling the specification
claims about it.

External collaborators (the HTTP client, the HTML parser library `BeautifulSoup`,
and the `natsort` library) are not part of the repository; where a claim depends
on them they are modelled abstractly (an oracle for the fetch outcome, a record
of the `resultStats` element's contents for a parsed page, and a signed numeric
key for count strings) following the spec's stated contracts for them.
-/

namespace Goo

/-- A result record, as in the source: the pair `(keyword, count-text)` that
`process` returns and `main` collects in `data`. -/
abbrev ResultRecord := String × String

/-- The fixed pool of user-agent strings from `UserAgents.__init__` in `goo.py`. -/
def userAgentData : List String :=
  [ "Mozilla/5.0 (Windows; U; Windows NT 5.1; de; rv:1.9.2.3) Gecko/20100401 Firefox/3.6.3",
    "Mozilla/5.0 (Macintosh; Intel Mac OS X 10_6_8) AppleWebKit/534.30 (KHTML, like Gecko) Chrome/12.0.742.112 Safari/534.30",
    "Mozilla/5.0 (Macintosh; Intel Mac OS X 10.8; rv:25.0) Gecko/20100101 Firefox/25.0",
    "Mozilla/5.0 (X11; Linux x86_64; rv:17.0) Gecko/20121202 Firefox/17.0 Iceweasel/17.0.1",
    "Mozilla/5.0 (Windows; U; MSIE 9.0; WIndows NT 9.0; en-US))",
    "w3m/0.5.2 (Linux i686; it; Debian-3.0.6-3)" ]

/-- State of the `UserAgents` iterator: the cursor `self.index` over the fixed
pool `userAgentData`. -/
structure UserAgents where
  index : Nat

/-- `UserAgents.next` from `goo.py`: return the string at the cursor, advance
the cursor, wrap to 0 when it reaches the pool length. -/
def UserAgents.next (ua : UserAgents) : String × UserAgents :=
  let i := ua.index
  let j := i + 1
  (userAgentData.getD i "", ⟨if j = userAgentData.length then 0 else j⟩)

/-- `non_numeric.sub('', stats)` from `process`: the regex `[^\d]+` replaced by
the empty string deletes every non-digit character, keeping the digits in order. -/
def non_numeric_sub (s : String) : String :=
  ⟨s.data.filter Char.isDigit⟩

/-- Abstraction of a parsed search-results page: `resultStats` is `some cs`
when the document has an element with id `resultStats` whose contents (as text
nodes) are `cs`, and `none` when `soup.find(id='resultStats')` returns `None`.
The DOM parsing itself is delegated to the external `BeautifulSoup` library. -/
structure Page where
  resultStats : Option (List String)
deriving DecidableEq

/-- Outcome of the fetch-and-parse stage for one keyword: `failure` models any
exception raised by `fetch_html`/`BeautifulSoup` (network error, non-success
status, timeout, parse error); `success page` models a parsed response body. -/
inductive FetchOutcome where
  | failure
  | success (page : Page)
deriving DecidableEq

/-- `process(keyword, user_agent)` from `goo.py`. The `try` block fetches the
page; when not in dry-run it takes `soup.find(id='resultStats').contents[0]`
and strips the non-digits; the bare `except` turns any exception (fetch
failure, missing element — an `AttributeError` on `None` —, or empty
`contents` — an `IndexError`) into the record `(keyword, '-1')`; in dry-run it
returns `(keyword, '-1')` directly. The user-agent string only parametrizes
the network request, which the `fetch` oracle abstracts. -/
def process (keyword : String) (dryRun : Bool) (fetch : FetchOutcome) : ResultRecord :=
  if dryRun then
    (keyword, "-1")
  else
    match fetch with
    | .failure => (keyword, "-1")
    | .success page =>
      match page.resultStats with
      | none => (keyword, "-1")
      | some [] => (keyword, "-1")
      | some (t :: _) => (keyword, non_numeric_sub t)

/-- The fetch or extract stage of `process` raises an exception: the fetch
fails, or the `resultStats` element is missing, or its `contents` are empty. -/
def stageFails (fetch : FetchOutcome) : Bool :=
  match fetch with
  | .failure => true
  | .success page =>
    match page.resultStats with
    | none => true
    | some [] => true
    | some (_ :: _) => false

/-- The keyword loop of `main` (`for i, element in enumerate(data): data[i] =
process(data[i], user_agents.next())`), with the rotator state threaded and the
fetch outcome of the `i`-th request given by the oracle `fetch`. -/
def runBatchAux (dryRun : Bool) (fetch : Nat → String → FetchOutcome) :
    List String → Nat → UserAgents → List ResultRecord
  | [], _, _ => []
  | k :: ks, i, ua =>
    process k dryRun (fetch i (ua.next).1) :: runBatchAux dryRun fetch ks (i + 1) (ua.next).2

/-- The records held in `data` after the keyword loop of `main`, before
ranking: the loop starts at index 0 with a fresh `UserAgents()`. -/
def runBatch (keywords : List String) (dryRun : Bool)
    (fetch : Nat → String → FetchOutcome) : List ResultRecord :=
  runBatchAux dryRun fetch keywords 0 ⟨0⟩

/-- The one-second sleeps performed by the loop `for i in range(s): time.sleep(1)`
in `do_wait`. -/
def sleepSeconds (s : Nat) : List Nat :=
  List.replicate s 1

/-- Total seconds slept by `do_wait` when `random.randint(min_wait, max_wait)`
returned `s`. -/
def do_wait (s : Nat) : Nat :=
  (sleepSeconds s).sum

/-- The pacing schedule of the keyword loop in `main`: for each index `i` of
`n` keywords, `do_wait()` is called exactly when `i + 1 != len(data)`; `draws i`
is the value returned by `random.randint` for the pause after index `i`.
Each entry is `(i, some seconds-slept)` or `(i, none)` when no pause happens. -/
def schedule (n : Nat) (draws : Nat → Nat) : List (Nat × Option Nat) :=
  (List.range n).map fun i => (i, if i + 1 ≠ n then some (do_wait (draws i)) else none)

/-- Numeric value of a digit string, most significant digit first (the value
`int()` gives a run of digits). -/
def digitsVal (l : List Char) : Nat :=
  l.foldl (fun a c => 10 * a + (c.toNat - 48)) 0

/-- Modelled from the spec: the sort key that the external `natsort` library
(2013-era default: signed numbers) assigns to a count string that is either a
digit-only string or the literal `"-1"` — the string's value as a signed
integer. The library itself is not part of the repository. -/
def natKey (s : String) : Int :=
  match s.data with
  | [] => 0
  | c :: rest => if c = '-' then -(digitsVal rest : Int) else (digitsVal (c :: rest) : Int)

/-- "The count interpreted as an integer" of the spec: a digit-only count is its
numeric value, the sentinel `"-1"` is the integer `-1`. -/
def countInt (s : String) : Int :=
  if s = "-1" then -1 else (digitsVal s.data : Int)

/-- The ordering `natsorted(data, itemgetter(1))` sorts by: ascending in the
natural-sort key of the count field. -/
def countLE (a b : ResultRecord) : Prop :=
  natKey a.2 ≤ natKey b.2

instance : DecidableRel countLE :=
  fun a b => inferInstanceAs (Decidable (natKey a.2 ≤ natKey b.2))

/-- The ranking step of `main`: `data = natsorted(data, itemgetter(1));
data.reverse()` — a stable ascending sort by the natural-sort key of the count
field (Python's stable sort modelled by a stable sort), then reversal. -/
def rank (data : List ResultRecord) : List ResultRecord :=
  (data.insertionSort countLE).reverse

/-- Summary error count from `main`: `Counter(elem[1] for elem in data)['-1']`,
the number of records whose count field is the literal `"-1"`. -/
def summaryErrors (data : List ResultRecord) : Nat :=
  (data.filter fun r => r.2 = "-1").length

/-- One output line before the trailing newline: `delim.join(result)` for a
record `result = (keyword, count)`. -/
def line (delim : String) (r : ResultRecord) : String :=
  r.1 ++ delim ++ r.2

/-- Observable effects of the output phase of `main` (lines 178–195 of
`goo.py`): `fileLines` is `some` exactly when the output file was written (one
entry per line, without the trailing newline); `consoleLines` are the lines
printed to the console on the no-outfile path; `dumped` is `some data` when the
`except` branch pretty-printed the full record list; `loggedWriteError` records
the `log.error` call of that branch. -/
structure OutputEffects where
  fileLines : Option (List String)
  consoleLines : List String
  dumped : Option (List ResultRecord)
  loggedWriteError : Bool
deriving DecidableEq

/-- The output phase of `main`: when an output file is configured, the `try`
block writes the records only when `not dry_run`; `writeOk = false` models
`open`/`write` raising, in which case the `except` branch logs the error and
pretty-prints the full list instead of re-raising. With no output file every
line goes to the console. -/
def outputStage (outfileSet : Bool) (dryRun : Bool) (writeOk : Bool)
    (delim : String) (data : List ResultRecord) : OutputEffects :=
  if outfileSet then
    if dryRun then
      { fileLines := none, consoleLines := [], dumped := none, loggedWriteError := false }
    else if writeOk then
      { fileLines := some (data.map (line delim)), consoleLines := [], dumped := none,
        loggedWriteError := false }
    else
      { fileLines := none, consoleLines := [], dumped := some data, loggedWriteError := true }
  else
    { fileLines := none, consoleLines := data.map (line delim), dumped := none,
      loggedWriteError := false }

/-- The bytes written for a record by `f.write(('%s\n' % delim.join(result)))`
with the default delimiter `,`: keyword, comma, count, newline. -/
def recordLineChars (r : ResultRecord) : List Char :=
  r.1.data ++ [','] ++ r.2.data ++ ['\n']

/-- The full file content written by the output loop of `main` with delimiter
`,`, as a character sequence. -/
def serialize (rs : List ResultRecord) : List Char :=
  (rs.map recordLineChars).flatten

/-- Split a character sequence at every occurrence of `c` (the separator is
consumed; `n` separators yield `n + 1` pieces). -/
def splitOnChar (c : Char) : List Char → List (List Char)
  | [] => [[]]
  | x :: xs =>
    let r := splitOnChar c xs
    if x = c then [] :: r
    else
      match r with
      | [] => [[x]]
      | y :: ys => (x :: y) :: ys

/-- Modelled from the spec: re-reading the output file line-by-line (each
`\n`-terminated line, with its newline stripped); the reading side of the
round-trip property is not part of the source. -/
def readLines (content : List Char) : List (List Char) :=
  (splitOnChar '\n' content).dropLast

/-- Modelled from the spec: re-read the file line-by-line and split each line
on `,`, giving the field lists the round-trip property talks about. -/
def readBack (content : List Char) : List (List (List Char)) :=
  (readLines content).map (splitOnChar ',')

/-! ## Helper lemmas -/

theorem process_fst (k : String) (d : Bool) (f : FetchOutcome) : (process k d f).1 = k := by
  cases d with
  | true => rfl
  | false =>
    cases f with
    | failure => rfl
    | success page =>
      obtain ⟨rs⟩ := page
      cases rs with
      | none => rfl
      | some l => cases l with | nil => rfl | cons t r => rfl

instance : IsTotal ResultRecord countLE :=
  ⟨fun a b => le_total (natKey a.2) (natKey b.2)⟩

instance : IsTrans ResultRecord countLE :=
  ⟨fun _ _ _ hab hbc => le_trans hab hbc⟩

theorem digit_string_ne_neg_one (s : String) (hdig : ∀ c ∈ s.data, c.isDigit) :
    s ≠ "-1" := by
  intro h
  subst h
  exact absurd (hdig '-' (by decide)) (by decide)

theorem natKey_eq_countInt (s : String)
    (hs : s = "-1" ∨ (s ≠ "" ∧ ∀ c ∈ s.data, c.isDigit)) : natKey s = countInt s := by
  rcases hs with rfl | ⟨hne, hdig⟩
  · decide
  · cases hdl : s.data with
    | nil => exact absurd (String.ext (hdl.trans rfl)) hne
    | cons c cs =>
      have hc : c.isDigit := hdig c (by rw [hdl]; exact List.mem_cons_self c cs)
      have hcne : c ≠ '-' := by
        intro h
        rw [h] at hc
        exact absurd hc (by decide)
      have hs1 : s ≠ "-1" := digit_string_ne_neg_one s hdig
      simp only [natKey, countInt, hdl, if_neg hcne, if_neg hs1]

/-- C1: `process` never propagates an exception to its caller: for every
keyword (and any user-agent, which the fetch oracle absorbs), if the fetch
stage or the extract stage fails with any exception, `process` returns the
record `(keyword, "-1")`, so a failing keyword never aborts the batch. (That
no exception escapes at all is reflected by `process` being a total function
into `ResultRecord`.) -/
theorem process_isolates_failures (keyword : String) (dryRun : Bool)
    (fetch : FetchOutcome) (h : stageFails fetch = true) :
    process keyword dryRun fetch = (keyword, "-1") := by
  cases dryRun with
  | true => rfl
  | false =>
    cases fetch with
    | failure => rfl
    | success page =>
      obtain ⟨rs⟩ := page
      cases rs with
      | none => rfl
      | some l =>
        cases l with
        | nil => rfl
        | cons t r => simp [stageFails] at h

/-- Witness for C1: a concrete fetch failure yields the sentinel record. -/
theorem process_isolates_failures_witness :
    stageFails .failure = true ∧ process "cats" false .failure = ("cats", "-1") :=
  ⟨rfl, process_isolates_failures "cats" false .failure rfl⟩

/-- C4 counterexample: a page whose `resultStats` element is present but whose
first text content has no digit yields the record `("kw", "")`, not the
sentinel `("kw", "-1")` the claim promises. -/
theorem extract_no_digits_counterexample :
    process "kw" false (.success ⟨some ["no results found"]⟩) = ("kw", "") ∧
    process "kw" false (.success ⟨some ["no results found"]⟩) ≠ ("kw", "-1") :=
  ⟨by decide, by decide⟩

/-- C4 amended: when (not in dry-run) the fetched HTML has no element with id
`resultStats`, extraction fails and the record is `(keyword, "-1")`; but when
the element is present and its first content contains no digit characters, no
exception is raised and the record is `(keyword, "")` — the empty string, not
the sentinel. -/
theorem extract_missing_vs_no_digits (k t : String) (rest : List String)
    (h : ∀ c ∈ t.data, ¬ c.isDigit) :
    process k false (.success ⟨none⟩) = (k, "-1") ∧
    process k false (.success ⟨some (t :: rest)⟩) = (k, "") := by
  refine ⟨rfl, ?_⟩
  have hf : t.data.filter Char.isDigit = [] := List.filter_eq_nil_iff.mpr (by simpa using h)
  simp [process, non_numeric_sub, hf]

/-- Witness for C4 (amended form): a digit-free stats text. -/
theorem extract_missing_vs_no_digits_witness :
    process "kw" false (.success ⟨none⟩) = ("kw", "-1") ∧
    process "kw" false (.success ⟨some ["no results"]⟩) = ("kw", "") :=
  extract_missing_vs_no_digits "kw" "no results" [] (by decide)

/-- C8: if fetching succeeds (not dry-run) and the `resultStats` element's
first content contains no digit characters, `process` returns `(keyword, "")`
— an empty-string count, not the `"-1"` sentinel — and the end-of-run summary
does not count such a record as an error, since it counts only records whose
count equals `"-1"`. -/
theorem empty_count_not_an_error (k t : String) (rest : List String)
    (l₁ l₂ : List ResultRecord) (h : ∀ c ∈ t.data, ¬ c.isDigit) :
    process k false (.success ⟨some (t :: rest)⟩) = (k, "") ∧
    summaryErrors (l₁ ++ (k, "") :: l₂) = summaryErrors (l₁ ++ l₂) := by
  constructor
  · have hf : t.data.filter Char.isDigit = [] := List.filter_eq_nil_iff.mpr (by simpa using h)
    simp [process, non_numeric_sub, hf]
  · simp [summaryErrors]

/-- Witness for C8. -/
theorem empty_count_not_an_error_witness :
    process "kw" false (.success ⟨some ["no results"]⟩) = ("kw", "") ∧
    summaryErrors ([("a", "-1")] ++ ("kw", "") :: [("b", "7")]) =
      summaryErrors ([("a", "-1")] ++ [("b", "7")]) :=
  empty_count_not_an_error "kw" "no results" [] [("a", "-1")] [("b", "7")] (by decide)

/-- C10 counterexample: with the `resultStats` first content
`"About 1,230,000 results (0.45 seconds)"`, stripping every non-digit keeps
the digits of the timing part too, so the extracted count is `"1230000045"`,
not the `"1230000"` the claim's concrete scenario promises. -/
theorem extract_concrete_counterexample :
    process "kw" false (.success ⟨some ["About 1,230,000 results (0.45 seconds)"]⟩)
      = ("kw", "1230000045") ∧
    process "kw" false (.success ⟨some ["About 1,230,000 results (0.45 seconds)"]⟩)
      ≠ ("kw", "1230000") :=
  ⟨by decide, by decide⟩

/-- C10 amended: for every HTML input (not in dry-run) whose `resultStats`
element's first content is the text `t`, the extracted count equals `t` with
every non-digit character removed (output is a function of the input text, so
re-running on identical bytes yields identical output); concretely the text
`"About 1,230,000 results (0.45 seconds)"` yields `"1230000045"`. -/
theorem extract_strips_non_digits (k t : String) (rest : List String) :
    process k false (.success ⟨some (t :: rest)⟩) = (k, ⟨t.data.filter Char.isDigit⟩) ∧
    process "kw" false (.success ⟨some ["About 1,230,000 results (0.45 seconds)"]⟩)
      = ("kw", "1230000045") :=
  ⟨rfl, by decide⟩

/-- C2: for every sequence of records whose count fields are (non-empty)
digit-only strings or the literal `"-1"`, the ranking step (stable ascending
natural sort by the count field, then reversal) produces the same records
sorted descending by the count interpreted as an integer, with every sentinel
`"-1"` record strictly after every record whose count is a non-negative digit
string (once a sentinel appears, everything after it is a sentinel). -/
theorem rank_sorted_descending (data : List ResultRecord)
    (h : ∀ r ∈ data, r.2 = "-1" ∨ (r.2 ≠ "" ∧ ∀ c ∈ r.2.data, c.isDigit)) :
    (rank data).Perm data ∧
    (rank data).Pairwise (fun a b => countInt b.2 ≤ countInt a.2) ∧
    (rank data).Pairwise (fun a b => a.2 = "-1" → b.2 = "-1") := by
  have hperm : (rank data).Perm data :=
    (data.insertionSort countLE).reverse_perm.trans (List.perm_insertionSort countLE data)
  have hsorted : (data.insertionSort countLE).Pairwise countLE :=
    List.sorted_insertionSort countLE data
  have hpair : (rank data).Pairwise fun a b => countLE b a := by
    rw [rank, List.pairwise_reverse]
    exact hsorted
  have hmem : ∀ x ∈ rank data, natKey x.2 = countInt x.2 := fun x hx =>
    natKey_eq_countInt x.2 (h x (hperm.subset hx))
  have h2 : (rank data).Pairwise fun a b => countInt b.2 ≤ countInt a.2 := by
    refine hpair.imp_of_mem ?_
    intro a b ha hb hab
    rw [← hmem a ha, ← hmem b hb]
    exact hab
  refine ⟨hperm, h2, ?_⟩
  refine h2.imp_of_mem ?_
  intro a b ha hb hle hA
  rcases h b (hperm.subset hb) with hb1 | ⟨_, hbdig⟩
  · exact hb1
  · exfalso
    have hb2 : b.2 ≠ "-1" := digit_string_ne_neg_one b.2 hbdig
    rw [countInt, countInt, if_pos hA, if_neg hb2] at hle
    omega

/-- Witness for C2: the spec's concrete ranking scenario. -/
theorem rank_sorted_descending_witness :
    (rank [("cats", "500"), ("dogs", "-1"), ("birds", "750000")]).Perm
      [("cats", "500"), ("dogs", "-1"), ("birds", "750000")] ∧
    (rank [("cats", "500"), ("dogs", "-1"), ("birds", "750000")]).Pairwise
      (fun a b => countInt b.2 ≤ countInt a.2) ∧
    (rank [("cats", "500"), ("dogs", "-1"), ("birds", "750000")]).Pairwise
      (fun a b => a.2 = "-1" → b.2 = "-1") :=
  rank_sorted_descending [("cats", "500"), ("dogs", "-1"), ("birds", "750000")] (by decide)

/-- C3 counterexample: with dry-run set and an output file configured, the
output phase writes nothing to the file (on the records a dry run produces),
contradicting the claim that the write still happens. -/
theorem dry_run_write_counterexample :
    (outputStage true true true "," [("alpha", "-1"), ("beta", "-1")]).fileLines = none ∧
    (outputStage true true true "," [("alpha", "-1"), ("beta", "-1")]).fileLines ≠
      some ([("alpha", "-1"), ("beta", "-1")].map (line ",")) :=
  ⟨by decide, by decide⟩

/-- C3 amended: when the dry-run flag is set and an output path is configured,
the program skips the file write entirely (and neither dumps nor prints the
records on that path): dry-run suppresses the file write as well as network
I/O, as the usage text "no requests are made and no files are written" says. -/
theorem dry_run_suppresses_write (writeOk : Bool) (delim : String)
    (data : List ResultRecord) :
    (outputStage true true writeOk delim data).fileLines = none ∧
    (outputStage true true writeOk delim data).dumped = none ∧
    (outputStage true true writeOk delim data).consoleLines = [] := by
  simp [outputStage]

theorem runBatchAux_length (d : Bool) (f : Nat → String → FetchOutcome) :
    ∀ (ks : List String) (i : Nat) (ua : UserAgents),
      (runBatchAux d f ks i ua).length = ks.length
  | [], _, _ => rfl
  | _ :: ks, i, ua => by
    simp [runBatchAux, runBatchAux_length d f ks (i + 1)]

theorem runBatchAux_getD_fst (d : Bool) (f : Nat → String → FetchOutcome) :
    ∀ (ks : List String) (i : Nat) (ua : UserAgents) (j : Nat), j < ks.length →
      ((runBatchAux d f ks i ua).getD j ("", "")).1 = ks.getD j ""
  | [], _, _, j, hj => by simp at hj
  | k :: ks, i, ua, 0, _ => by simp [runBatchAux, process_fst]
  | k :: ks, i, ua, j + 1, hj => by
    simp only [runBatchAux, List.getD_cons_succ]
    exact runBatchAux_getD_fst d f ks (i + 1) (ua.next).2 j (by simpa using hj)

/-- C5: for every non-empty input keyword sequence, the batch loop produces
(before ranking) exactly one `ResultRecord` per input keyword, and the `i`-th
record's keyword field is the `i`-th input keyword: input order and
cardinality are preserved, for any dry-run setting and any fetch outcomes. -/
theorem runBatch_preserves_keywords (ks : List String) (dryRun : Bool)
    (fetch : Nat → String → FetchOutcome) (_hne : ks ≠ []) :
    (runBatch ks dryRun fetch).length = ks.length ∧
    ∀ i, i < ks.length → ((runBatch ks dryRun fetch).getD i ("", "")).1 = ks.getD i "" :=
  ⟨runBatchAux_length dryRun fetch ks 0 ⟨0⟩,
   fun i hi => runBatchAux_getD_fst dryRun fetch ks 0 ⟨0⟩ i hi⟩

/-- Witness for C5: three keywords, all fetches failing. -/
theorem runBatch_preserves_keywords_witness :
    (["cats", "dogs", "birds"] : List String) ≠ [] ∧
    (runBatch ["cats", "dogs", "birds"] false (fun _ _ => .failure)).length = 3 ∧
    ((runBatch ["cats", "dogs", "birds"] false (fun _ _ => .failure)).getD 1 ("", "")).1
      = "dogs" := by
  have h := runBatch_preserves_keywords ["cats", "dogs", "birds"] false
    (fun _ _ => .failure) (by decide)
  exact ⟨by decide, h.1, h.2 1 (by decide)⟩

/-- C7: for every run over `n` keywords, a pause is performed after processing
keyword `i` exactly when `i + 1 < n` (never after the last keyword), and every
pause sleeps an integer number of seconds in the closed range
`[min_wait, max_wait] = [min_wait, min_wait + fuzz]`, for every value the
`random.randint(min_wait, max_wait)` draw can yield. -/
theorem schedule_pauses (n : Nat) (draws : Nat → Nat) (minW fuzz : Nat)
    (h : ∀ i, minW ≤ draws i ∧ draws i ≤ minW + fuzz) :
    (∀ i d, (i, some d) ∈ schedule n draws → i + 1 < n ∧ minW ≤ d ∧ d ≤ minW + fuzz) ∧
    (∀ i, i + 1 < n → (i, some (do_wait (draws i))) ∈ schedule n draws) ∧
    (∀ i, (i, (none : Option Nat)) ∈ schedule n draws → i + 1 = n) := by
  have hwait : ∀ s, do_wait s = s := by
    intro s
    simp [do_wait, sleepSeconds, List.sum_replicate, smul_eq_mul]
  refine ⟨?_, ?_, ?_⟩
  · intro i d hmem
    simp only [schedule, List.mem_map, List.mem_range] at hmem
    obtain ⟨a, ha, heq⟩ := hmem
    simp only [Prod.mk.injEq] at heq
    obtain ⟨rfl, heq2⟩ := heq
    by_cases hn : a + 1 ≠ n
    · rw [if_pos hn] at heq2
      have hd : do_wait (draws a) = d := Option.some.inj heq2
      rw [hwait] at hd
      have := h a
      exact ⟨by omega, by omega, by omega⟩
    · rw [if_neg hn] at heq2
      exact absurd heq2 (by simp)
  · intro i hi
    simp only [schedule, List.mem_map, List.mem_range]
    exact ⟨i, by omega, by simp [show i + 1 ≠ n by omega]⟩
  · intro i hmem
    simp only [schedule, List.mem_map, List.mem_range] at hmem
    obtain ⟨a, ha, heq⟩ := hmem
    simp only [Prod.mk.injEq] at heq
    obtain ⟨rfl, heq2⟩ := heq
    by_cases hn : a + 1 ≠ n
    · rw [if_pos hn] at heq2
      exact absurd heq2 (by simp)
    · omega

/-- Witness for C7: three keywords, every draw equal to 7, min 5 and fuzz 5. -/
theorem schedule_pauses_witness :
    (0 : Nat) + 1 < 3 ∧ 5 ≤ do_wait 7 ∧ do_wait 7 ≤ 5 + 5 :=
  (schedule_pauses 3 (fun _ => 7) 5 5 (fun i => ⟨Nat.le_of_sub_eq_zero rfl,
    Nat.le_of_sub_eq_zero rfl⟩)).1 0 (do_wait 7) (by decide)

theorem splitOnChar_ne_nil (c : Char) : ∀ l : List Char, splitOnChar c l ≠ []
  | [] => by simp [splitOnChar]
  | x :: xs => by
    simp only [splitOnChar]
    by_cases hx : x = c
    · simp [hx]
    · cases hr : splitOnChar c xs with
      | nil => simp [hx, hr]
      | cons y ys => simp [hx, hr]

theorem splitOnChar_of_not_mem (c : Char) :
    ∀ l : List Char, c ∉ l → splitOnChar c l = [l]
  | [], _ => rfl
  | x :: xs, h => by
    have hx : x ≠ c := fun hxc => h (hxc ▸ List.mem_cons_self x xs)
    have hxs : c ∉ xs := fun hm => h (List.mem_cons_of_mem x hm)
    simp only [splitOnChar, if_neg hx, splitOnChar_of_not_mem c xs hxs]

theorem splitOnChar_append (c : Char) :
    ∀ l₁ l₂ : List Char, c ∉ l₁ →
      splitOnChar c (l₁ ++ c :: l₂) = l₁ :: splitOnChar c l₂
  | [], l₂, _ => by simp [splitOnChar]
  | x :: l₁, l₂, h => by
    have hx : x ≠ c := fun hxc => h (hxc ▸ List.mem_cons_self x l₁)
    have hl₁ : c ∉ l₁ := fun hm => h (List.mem_cons_of_mem x hm)
    have ih := splitOnChar_append c l₁ l₂ hl₁
    simp only [List.cons_append, splitOnChar, if_neg hx]
    rw [show l₁.append (c :: l₂) = l₁ ++ c :: l₂ from rfl, ih]

theorem dropLast_cons_of_ne_nil {α : Type} (a : α) {l : List α} (h : l ≠ []) :
    (a :: l).dropLast = a :: l.dropLast := by
  cases l with
  | nil => exact absurd rfl h
  | cons b l => rfl

/-- C6 counterexample: a keyword containing the delimiter `,` does not survive
the write/re-read round trip — the line `a,b,5` splits into three fields, not
the original pair `("a,b", "5")`. -/
theorem roundtrip_counterexample :
    readBack (serialize [("a,b", "5")]) = [[['a'], ['b'], ['5']]] ∧
    readBack (serialize [("a,b", "5")]) ≠ [["a,b".data, "5".data]] :=
  ⟨by decide, by decide⟩

/-- C6 amended: for every list of records none of whose fields (keyword or
count) contains the delimiter `,` or a newline, writing them as one
`keyword,count\n` line each and re-reading the file line-by-line, splitting
each line on `,`, reconstructs the original (keyword, count) pairs exactly. -/
theorem roundtrip_delimited_output :
    ∀ rs : List ResultRecord,
      (∀ r ∈ rs, (',' ∉ r.1.data ∧ '\n' ∉ r.1.data) ∧ (',' ∉ r.2.data ∧ '\n' ∉ r.2.data)) →
      readBack (serialize rs) = rs.map fun r => [r.1.data, r.2.data]
  | [], _ => rfl
  | r :: rs, h => by
    obtain ⟨⟨hk1, hk2⟩, ⟨hc1, hc2⟩⟩ := h r (List.mem_cons_self r rs)
    have hrest : ∀ x ∈ rs, (',' ∉ x.1.data ∧ '\n' ∉ x.1.data) ∧
        (',' ∉ x.2.data ∧ '\n' ∉ x.2.data) :=
      fun x hx => h x (List.mem_cons_of_mem r hx)
    have ih := roundtrip_delimited_output rs hrest
    have hline : '\n' ∉ r.1.data ++ ',' :: r.2.data := by
      intro hm
      rcases List.mem_append.mp hm with hm1 | hm2
      · exact hk2 hm1
      · rcases List.mem_cons.mp hm2 with hm3 | hm4
        · exact absurd hm3.symm (by decide)
        · exact hc2 hm4
    have hser : serialize (r :: rs) =
        (r.1.data ++ ',' :: r.2.data) ++ '\n' :: serialize rs := by
      simp [serialize, recordLineChars]
    have hsplit : splitOnChar '\n' (serialize (r :: rs)) =
        (r.1.data ++ ',' :: r.2.data) :: splitOnChar '\n' (serialize rs) := by
      rw [hser]
      exact splitOnChar_append '\n' _ _ hline
    have hlines : readLines (serialize (r :: rs)) =
        (r.1.data ++ ',' :: r.2.data) :: readLines (serialize rs) := by
      rw [readLines, hsplit, readLines]
      exact dropLast_cons_of_ne_nil _ (splitOnChar_ne_nil '\n' _)
    have hfields : splitOnChar ',' (r.1.data ++ ',' :: r.2.data) =
        [r.1.data, r.2.data] := by
      rw [splitOnChar_append ',' _ _ hk1, splitOnChar_of_not_mem ',' _ hc1]
    rw [readBack, hlines, List.map_cons, hfields, ← readBack, ih, List.map_cons]

/-- Witness for C6 (amended form): a clean record survives the round trip. -/
theorem roundtrip_delimited_output_witness :
    readBack (serialize [("alpha", "500")]) = [["alpha".data, "500".data]] :=
  roundtrip_delimited_output [("alpha", "500")] (by decide)

/-- C9: if an output path is configured and opening or writing the output file
raises (not in dry-run, where no write is attempted), the program catches the
exception, logs the write error, dumps the full in-memory record list to the
console, and does not re-raise — `outputStage` is total and returns normally. -/
theorem write_failure_dumps_records (delim : String) (data : List ResultRecord) :
    outputStage true false false delim data =
      { fileLines := none, consoleLines := [], dumped := some data,
        loggedWriteError := true } := by
  simp [outputStage]

end Goo
